import Mathlib

/-!
Verification development for the notification-kafka-lib repository.

The file shallowly embeds the two core components of the library:
* the layered configuration resolver (`src/config/config.go`, with the
  variant in `src/unnamed/part_001` modelled where the two differ), and
* the Kafka notification publisher (`package producer` in `src/dto/messages.go`).

External effects (the Vault HTTP read, the Kafka transport, the clock and the
environment) are passed in as explicit parameters, so every definition is an
executable Lean function mirroring the corresponding Go function.
-/

set_option maxRecDepth 8000
set_option maxHeartbeats 1600000

namespace NotifKafka

/-! ## Go standard-library string primitives used by the code -/

/-- The White_Space code points recognised by Go's `unicode.IsSpace`. -/
def goIsSpace (c : Char) : Bool :=
  c.toNat = 0x09 || c.toNat = 0x0A || c.toNat = 0x0B || c.toNat = 0x0C ||
  c.toNat = 0x0D || c.toNat = 0x20 || c.toNat = 0x85 || c.toNat = 0xA0 ||
  c.toNat = 0x1680 || (0x2000 ≤ c.toNat && c.toNat ≤ 0x200A) ||
  c.toNat = 0x2028 || c.toNat = 0x2029 || c.toNat = 0x202F ||
  c.toNat = 0x205F || c.toNat = 0x3000

/-- Drop the leading run of whitespace characters. -/
def dropLeadingSpace : List Char → List Char
  | [] => []
  | c :: cs => if goIsSpace c then dropLeadingSpace cs else c :: cs

/-- Go `strings.TrimSpace`: remove leading and trailing whitespace. -/
def goTrimSpace (s : String) : String :=
  String.mk ((dropLeadingSpace ((dropLeadingSpace s.toList).reverse)).reverse)

/-- Helper for `goSplitComma`: accumulate the current field (reversed). -/
def splitCommaAux : List Char → List Char → List (List Char)
  | [], acc => [acc.reverse]
  | c :: cs, acc =>
    if c = ',' then acc.reverse :: splitCommaAux cs [] else splitCommaAux cs (c :: acc)

/-- Go `strings.Split(s, ",")`. -/
def goSplitComma (s : String) : List String :=
  (splitCommaAux s.toList []).map String.mk

/-- Go `strconv.ParseBool`: accepts exactly these ten literals. -/
def goParseBool (s : String) : Option Bool :=
  if s = "1" || s = "t" || s = "T" || s = "TRUE" || s = "true" || s = "True" then
    some true
  else if s = "0" || s = "f" || s = "F" || s = "FALSE" || s = "false" || s = "False" then
    some false
  else
    none

/-- Decimal value of a run of characters; `none` as soon as a non-digit occurs. -/
def decDigitsVal : List Char → Nat → Option Nat
  | [], acc => some acc
  | c :: cs, acc =>
    if c.isDigit then decDigitsVal cs (acc * 10 + (c.toNat - 48)) else none

/-- Go `strconv.Atoi` on a 64-bit platform: optional sign, one or more decimal
digits, nothing else; out-of-range values are an error (the callers only test
`err == nil`, so range errors behave like parse failures). -/
def goAtoi (s : String) : Option Int :=
  let core : List Char → Option Nat := fun l =>
    match l with
    | [] => none
    | _ => decDigitsVal l 0
  match s.toList with
  | '+' :: rest =>
    (core rest).bind fun n =>
      if n ≤ 9223372036854775807 then some (n : Int) else none
  | '-' :: rest =>
    (core rest).bind fun n =>
      if n ≤ 9223372036854775808 then some (-(n : Int)) else none
  | l =>
    (core l).bind fun n =>
      if n ≤ 9223372036854775807 then some (n : Int) else none

/-! ## Configuration resolver (`src/config/config.go`)

A Vault response datum (`map[string]interface{}` value) is a string, a nested
map, or some other JSON value; `GetSecret` only ever type-asserts to `string`
and `fetchSecrets` only ever type-asserts to `map[string]interface{}`, so the
third constructor stands for every other dynamic type. -/

inductive VaultVal where
  | vstr (s : String)
  | vmap (m : List (String × VaultVal))
  | vother
deriving Repr

/-- First-match association lookup, modelling a Go map read (keys distinct). -/
def lookupKey (m : List (String × VaultVal)) (key : String) : Option VaultVal :=
  match m with
  | [] => none
  | (k, v) :: rest => if k = key then some v else lookupKey rest key

/-- `EmailConfig` of `src/config/config.go`. -/
structure EmailConfig where
  MailjetAPIKey : String
  MailjetSecret : String
  MailjetSenderEmail : String
  MailjetSenderName : String
deriving Repr, DecidableEq

/-- `KafkaConfig` of `src/config/config.go`. -/
structure KafkaConfig where
  Brokers : String
  EmailTopic : String
  SmsTopic : String
  FeedbackTopic : String
  ConsumerGroup : String
  AutoOffsetReset : String
  EnableAutoCommit : Bool
  SessionTimeoutMs : Int
  SASLEnabled : Bool
  SASLUsername : String
  SASLPassword : String
  SASLMechanism : String
deriving Repr, DecidableEq

/-- `ConfigParsed` of `src/config/config.go`. -/
structure ConfigParsed where
  Email : EmailConfig
  Kafka : KafkaConfig
deriving Repr, DecidableEq

/-- Outcome of the single `v.client.Logical().Read(v.path)` call: a transport
error, or a response whose `Data` field is either absent (`secret == nil ||
secret.Data == nil`) or an association map. -/
inductive FetchOutcome where
  | readErr (e : String)
  | resp (data : Option (List (String × VaultVal)))
deriving Repr

/-- `getEnv` of `src/config/config.go`: read an environment variable,
empty string when unset. The process environment is the explicit `env` map. -/
def getEnv (env : String → String) (key : String) : String :=
  if env key ≠ "" then env key else ""

/-- `fetchSecrets` of `src/config/config.go` (lines 96–108): a read error is
returned as is; a missing response or missing data is "no secrets found"; the
nested "data" map, when present with the right type, becomes the cache, and
otherwise the cache silently stays nil (modelled as the empty list). -/
def fetchSecrets (path : String) (fetch : FetchOutcome) :
    Except String (List (String × VaultVal)) :=
  match fetch with
  | .readErr e => .error e
  | .resp none => .error ("no secrets found at path: " ++ path)
  | .resp (some d) =>
    match lookupKey d "data" with
    | some (.vmap m) => .ok m
    | _ => .ok []

/-- `fetchSecrets` of the `src/unnamed/part_001` variant (lines 74–90): same,
except that a present-but-mistyped "data" entry is an error. -/
def fetchSecretsP1 (path : String) (fetch : FetchOutcome) :
    Except String (List (String × VaultVal)) :=
  match fetch with
  | .readErr e => .error ("failed to read secrets from Vault path " ++ path ++ ": " ++ e)
  | .resp none => .error ("no secrets found at path: " ++ path)
  | .resp (some d) =>
    match lookupKey d "data" with
    | some (.vmap m) => .ok m
    | _ => .error ("invalid secret data format at path: " ++ path)

/-- `NewVaultClient` of `src/config/config.go` (lines 60–92): check the three
bootstrap environment variables with a distinct error each, build the client
(`clientInit` models `api.NewClient`: `none` is success), then fetch and cache
the secrets. Returns the cached secret map on success. -/
def NewVaultClient (env : String → String) (clientInit : Option String)
    (fetch : FetchOutcome) : Except String (List (String × VaultVal)) :=
  let vaultAddr := getEnv env "VAULT_ADDR"
  let vaultToken := getEnv env "VAULT_TOKEN"
  let vaultPath := getEnv env "VAULT_PATH"
  if vaultAddr = "" then
    .error "VAULT_ADDR environment variable is not set"
  else if vaultToken = "" then
    .error "VAULT_TOKEN environment variable is not set"
  else if vaultPath = "" then
    .error "VAULT_PATH environment variable is not set"
  else
    match clientInit with
    | some e => .error ("failed to initialize Vault client: " ++ e)
    | none =>
      match fetchSecrets vaultPath fetch with
      | .error e => .error ("failed to fetch secrets from Vault: " ++ e)
      | .ok data => .ok data

/-- `NewVaultClient` of the `src/unnamed/part_001` variant (lines 46–68): no
emptiness checks on the three bootstrap environment variables — the address
goes straight into the client config, the (possibly empty) token is set, and
the constructor proceeds directly to the store read at the (possibly empty)
path; the call's outcome is the client-init outcome and then whatever the
read produces. -/
def NewVaultClientP1 (env : String → String) (clientInit : Option String)
    (fetch : FetchOutcome) : Except String (List (String × VaultVal)) :=
  match clientInit with
  | some e => .error ("failed to create Vault client: " ++ e)
  | none =>
    match fetchSecretsP1 (getEnv env "VAULT_PATH") fetch with
    | .error e => .error ("failed to fetch secrets: " ++ e)
    | .ok data => .ok data

/-- `GetSecret` of `src/config/config.go` (lines 110–117): the cached value if
it is a string, otherwise the empty string; the error component is always nil
(`none`). -/
def GetSecret (secretData : List (String × VaultVal)) (key : String) :
    String × Option String :=
  match lookupKey secretData key with
  | some (.vstr v) => (v, none)
  | _ => ("", none)

/-- The `getConfigValue` closure inside `Load` (lines 130–135). -/
def getConfigValue (secretData : List (String × VaultVal))
    (vaultKey defaultValue : String) : String :=
  let r := GetSecret secretData vaultKey
  if r.2 = none ∧ r.1 ≠ "" then r.1 else defaultValue

/-- The `getConfigBool` closure inside `Load` (lines 137–144). -/
def getConfigBool (secretData : List (String × VaultVal))
    (vaultKey : String) (defaultValue : Bool) : Bool :=
  let r := GetSecret secretData vaultKey
  if r.2 = none ∧ r.1 ≠ "" then
    match goParseBool r.1 with
    | some b => b
    | none => defaultValue
  else defaultValue

/-- The `getConfigInt` closure inside `Load` (lines 146–153). -/
def getConfigInt (secretData : List (String × VaultVal))
    (vaultKey : String) (defaultValue : Int) : Int :=
  let r := GetSecret secretData vaultKey
  if r.2 = none ∧ r.1 ≠ "" then
    match goAtoi r.1 with
    | some n => n
    | none => defaultValue
  else defaultValue

/-- `Load` of `src/config/config.go` (lines 124–179). -/
def Load (env : String → String) (clientInit : Option String)
    (fetch : FetchOutcome) : Except String ConfigParsed :=
  match NewVaultClient env clientInit fetch with
  | .error e => .error e
  | .ok secretData =>
    .ok {
      Email := {
        MailjetAPIKey := getConfigValue secretData "MAILJET_API_KEY" "8ffe2ad16061f06aa2be7e98e94647d8"
        MailjetSecret := getConfigValue secretData "MAILJET_SECRET_KEY" "b507c6e61ab193f98910589767770fd9"
        MailjetSenderEmail := getConfigValue secretData "MAILJET_SENDER_EMAIL" "noreply@dubeale.com"
        MailjetSenderName := getConfigValue secretData "MAILJET_SENDER_NAME" "CBE"
      }
      Kafka := {
        Brokers := getConfigValue secretData "KAFKA_BROKERS" ""
        EmailTopic := getConfigValue secretData "KAFKA_EMAIL_TOPIC" "email-notifications"
        SmsTopic := getConfigValue secretData "KAFKA_SMS_TOPIC" "sms-notifications"
        FeedbackTopic := getConfigValue secretData "KAFKA_FEEDBACK_TOPIC" "feedback-events"
        ConsumerGroup := getConfigValue secretData "KAFKA_CONSUMER_GROUP" "notification-service"
        AutoOffsetReset := getConfigValue secretData "KAFKA_AUTO_OFFSET_RESET" "earliest"
        EnableAutoCommit := getConfigBool secretData "KAFKA_ENABLE_AUTO_COMMIT" true
        SessionTimeoutMs := getConfigInt secretData "KAFKA_SESSION_TIMEOUT_MS" 10000
        SASLEnabled := getConfigBool secretData "KAFKA_SASL_ENABLED" false
        SASLUsername := getConfigValue secretData "KAFKA_SASL_USERNAME" ""
        SASLPassword := getConfigValue secretData "KAFKA_SASL_PASSWORD" ""
        SASLMechanism := getConfigValue secretData "KAFKA_SASL_MECHANISM" "PLAIN"
      }
    }

/-! ## Notification producer (`package producer` in `src/dto/messages.go`)

The producer's mutable state is the mutex-guarded `closed` flag.  To reason
about resource usage the model additionally counts how many times the
underlying connection was released (`producer.Close()`) and how many times the
transport send (`producer.SendMessage`) was invoked; the Go struct's other
fields (logger, config, the connection handle itself) carry no state the
claims depend on. -/

structure ProducerState where
  closed : Bool
  releases : Nat
  sends : Nat
deriving Repr, DecidableEq

/-- The transport's answer to one `producer.SendMessage` call: a partition and
offset on success, or an error. -/
inductive SendReply where
  | success (partition : Int) (offset : Int)
  | failure (e : String)
deriving Repr, DecidableEq

/-- `Close` of the producer (`src/dto/messages.go` lines 262–276 and 441–455):
under the lock, a no-op when already closed; otherwise set the flag and
release the underlying connection once (errors are logged, never returned). -/
def Close (s : ProducerState) : ProducerState :=
  if s.closed then s
  else { closed := true, releases := s.releases + 1, sends := s.sends }

/-- `safeSendMessage` (lines 358–367 and 517–526): under the lock, fail with
"producer is closed" without touching the connection when closed; otherwise
invoke the transport send and surface its reply. -/
def safeSendMessage (s : ProducerState) (reply : SendReply) :
    Except String (Int × Int) × ProducerState :=
  if s.closed then (.error "producer is closed", s)
  else
    match reply with
    | .success p o => (.ok (p, o), { s with sends := s.sends + 1 })
    | .failure e => (.error e, { s with sends := s.sends + 1 })

/-- One producer-facing operation: a `Close` call or a send attempt carrying
the transport's reply for the case the send is actually performed. -/
inductive ProducerOp where
  | close
  | send (reply : SendReply)
deriving Repr

/-- Run a sequence of operations against the producer state. -/
def runOps (s : ProducerState) : List ProducerOp → ProducerState
  | [] => s
  | .close :: rest => runOps (Close s) rest
  | .send reply :: rest => runOps (safeSendMessage s reply).2 rest

/-- The goroutine body inside `produceAndWait` (lines 334–342): call
`safeSendMessage`; wrap a failure as "failed to produce message: ..."; report
`nil` (`none`) on success.  The value written to the `done` channel. -/
def sendTaskResult (s : ProducerState) (reply : SendReply) : Option String :=
  match (safeSendMessage s reply).1 with
  | .error e => some ("failed to produce message: " ++ e)
  | .ok _ => none

/-- Which of the three `select` branches of `produceAndWait` becomes ready
first: the buffered `done` channel, the caller's context, or the internal
`time.After` ceiling. -/
inductive FirstReady where
  | sendResult (reply : SendReply)
  | ctxDone (ctxErr : String)
  | ceiling
deriving Repr

/-- The internal delivery-confirmation ceiling of `produceAndWait`:
`time.After(30 * time.Second)`. -/
def deliveryTimeoutSeconds : Nat := 30

/-- `produceAndWait` (lines 331–352 and 490–511) as a function of whichever
branch of its `select` fires first: the send task's reported result wins if
the `done` channel is first; the context's error wins if the context is
signalled first; the fixed timeout error wins if the internal ceiling elapses
first.  Returns `none` for a nil error. -/
def produceAndWait (s : ProducerState) (first : FirstReady) : Option String :=
  match first with
  | .sendResult reply => sendTaskResult s reply
  | .ctxDone ctxErr => some ctxErr
  | .ceiling => some "timeout while waiting for message delivery"

/-- `NewNotificationProducer` (lines 222–230 and 401–409), restricted to the
broker-list derivation the claims are about: fail when `cfg.Brokers` is empty,
otherwise split on commas and trim every element.  The remaining constructor
work configures the external Sarama client. -/
def NewNotificationProducer (cfg : KafkaConfig) : Except String (List String) :=
  if cfg.Brokers = "" then .error "Kafka brokers not configured"
  else .ok ((goSplitComma cfg.Brokers).map goTrimSpace)

/-- A concrete process environment: the three Vault bootstrap variables are
set, and so is the non-bootstrap `KAFKA_CONSUMER_GROUP` variable. -/
def demoEnv : String → String := fun k =>
  if k = "VAULT_ADDR" then "http://127.0.0.1:8200"
  else if k = "VAULT_TOKEN" then "vault-token"
  else if k = "VAULT_PATH" then "secret/data/notifications"
  else if k = "KAFKA_CONSUMER_GROUP" then "custom-group"
  else ""

/-! ## JSON documents (`encoding/json`)

`NewNotificationMessage` stores `json.Marshal(payload)` — a JSON document —
as the envelope's raw payload, the envelope itself is marshalled to bytes,
and the consumer side unmarshals those bytes and then the payload.  The model
represents a marshalled value by its JSON document tree (numbers as the
integers the library's payloads carry) and implements the byte-level
serialisation (`render`, Go's compact output with its escaping rules) and
deserialisation (`parseVal`, a recursive-descent parser for that compact
form) explicitly. -/

inductive Json where
  | jnull
  | jbool (b : Bool)
  | jnum (n : Int)
  | jstr (s : List Char)
  | jarr (elems : List Json)
  | jobj (fields : List (List Char × Json))
deriving Repr

/-- Lower-case hexadecimal digit, as Go's `encoding/json` emits in
escapes. -/
def hexDigit (n : Nat) : Char :=
  if n < 10 then Char.ofNat (48 + n) else Char.ofNat (87 + n)

/-- Go `encoding/json` string escaping (HTML escaping on, the default used by
`json.Marshal`): quote, backslash, the three short control escapes, other
control bytes as `\u00XX`, the HTML-significant characters, and the two
line-separator code points. -/
def goEscapeChar (c : Char) : List Char :=
  if c = '"' then ['\\', '"']
  else if c = '\\' then ['\\', '\\']
  else if c = '\n' then ['\\', 'n']
  else if c = '\r' then ['\\', 'r']
  else if c = '\t' then ['\\', 't']
  else if c.toNat < 32 then
    ['\\', 'u', '0', '0', hexDigit (c.toNat / 16), hexDigit (c.toNat % 16)]
  else if c = '<' then ['\\', 'u', '0', '0', '3', 'c']
  else if c = '>' then ['\\', 'u', '0', '0', '3', 'e']
  else if c = '&' then ['\\', 'u', '0', '0', '2', '6']
  else if c.toNat = 0x2028 then ['\\', 'u', '2', '0', '2', '8']
  else if c.toNat = 0x2029 then ['\\', 'u', '2', '0', '2', '9']
  else [c]

/-- Escape a whole string body. -/
def escapeList (s : List Char) : List Char :=
  (s.map goEscapeChar).flatten

/-- A rendered JSON string: quote, escaped body, quote. -/
def renderString (s : List Char) : List Char :=
  '"' :: escapeList s ++ ['"']

/-- Decimal digit characters of a natural number, most significant first. -/
def natChars (m : Nat) : List Char :=
  if m = 0 then ['0']
  else (Nat.digits 10 m).reverse.map fun d => Char.ofNat (48 + d)

/-- A rendered JSON integer (Go renders `int` fields this way). -/
def renderInt (n : Int) : List Char :=
  if n < 0 then '-' :: natChars n.natAbs else natChars n.toNat

mutual

/-- Compact serialisation of a JSON document, as `json.Marshal` outputs. -/
def render : Json → List Char
  | .jnull => ['n', 'u', 'l', 'l']
  | .jbool true => ['t', 'r', 'u', 'e']
  | .jbool false => ['f', 'a', 'l', 's', 'e']
  | .jnum n => renderInt n
  | .jstr s => renderString s
  | .jarr es => '[' :: renderElemsAll es
  | .jobj fs => '{' :: renderFieldsAll fs

/-- Everything after the opening bracket of an array. -/
def renderElemsAll : List Json → List Char
  | [] => [']']
  | x :: xs => render x ++ renderElemsTail xs ++ [']']

/-- Comma-prefixed further array elements. -/
def renderElemsTail : List Json → List Char
  | [] => []
  | x :: xs => ',' :: render x ++ renderElemsTail xs

/-- Everything after the opening brace of an object. -/
def renderFieldsAll : List (List Char × Json) → List Char
  | [] => ['}']
  | (k, v) :: fs => renderString k ++ ':' :: render v ++ renderFieldsTail fs ++ ['}']

/-- Comma-prefixed further object members. -/
def renderFieldsTail : List (List Char × Json) → List Char
  | [] => []
  | (k, v) :: fs => ',' :: renderString k ++ ':' :: render v ++ renderFieldsTail fs

end

/-- Value of a hexadecimal digit character. -/
def parseHexDigit (c : Char) : Option Nat :=
  if 48 ≤ c.toNat ∧ c.toNat ≤ 57 then some (c.toNat - 48)
  else if 97 ≤ c.toNat ∧ c.toNat ≤ 102 then some (c.toNat - 87)
  else if 65 ≤ c.toNat ∧ c.toNat ≤ 70 then some (c.toNat - 55)
  else none

/-- Parse a JSON string body after the opening quote: returns the decoded
content and the input after the closing quote. -/
def parseStringBody : List Char → Option (List Char × List Char)
  | [] => none
  | c :: r =>
    if c = '"' then some ([], r)
    else if c = '\\' then
      match r with
      | [] => none
      | e :: r2 =>
        if e = '"' then (parseStringBody r2).map fun p => ('"' :: p.1, p.2)
        else if e = '\\' then (parseStringBody r2).map fun p => ('\\' :: p.1, p.2)
        else if e = '/' then (parseStringBody r2).map fun p => ('/' :: p.1, p.2)
        else if e = 'b' then (parseStringBody r2).map fun p => (Char.ofNat 8 :: p.1, p.2)
        else if e = 'f' then (parseStringBody r2).map fun p => (Char.ofNat 12 :: p.1, p.2)
        else if e = 'n' then (parseStringBody r2).map fun p => ('\n' :: p.1, p.2)
        else if e = 'r' then (parseStringBody r2).map fun p => ('\r' :: p.1, p.2)
        else if e = 't' then (parseStringBody r2).map fun p => ('\t' :: p.1, p.2)
        else if e = 'u' then
          match r2 with
          | h1 :: h2 :: h3 :: h4 :: r3 =>
            match parseHexDigit h1, parseHexDigit h2, parseHexDigit h3, parseHexDigit h4 with
            | some a, some b, some c3, some d =>
              (parseStringBody r3).map fun p =>
                (Char.ofNat (((a * 16 + b) * 16 + c3) * 16 + d) :: p.1, p.2)
            | _, _, _, _ => none
          | _ => none
        else none
    else if c.toNat < 32 then none
    else (parseStringBody r).map fun p => (c :: p.1, p.2)
termination_by l => l.length
decreasing_by all_goals simp_arith

/-- Consume a maximal run of decimal digits, accumulating their value. -/
def parseDigitsAux : List Char → Nat → Nat × List Char
  | [], acc => (acc, [])
  | c :: r, acc =>
    if c.isDigit then parseDigitsAux r (acc * 10 + (c.toNat - 48)) else (acc, c :: r)

/-- The input left over after a complete value never starts with a digit
(in a document it starts with a separator or a closing bracket, or is empty);
under this condition number parsing stops exactly at a value's boundary. -/
def noLeadingDigit : List Char → Bool
  | [] => true
  | c :: _ => !c.isDigit

mutual

/-- Recursive-descent parser for one compact JSON value; `fuel` bounds the
recursion depth and strictly decreases on every nested call. -/
def parseVal : Nat → List Char → Option (Json × List Char)
  | 0, _ => none
  | _ + 1, [] => none
  | fuel + 1, c :: r =>
    if c = 'n' then
      match r with
      | 'u' :: 'l' :: 'l' :: r2 => some (.jnull, r2)
      | _ => none
    else if c = 't' then
      match r with
      | 'r' :: 'u' :: 'e' :: r2 => some (.jbool true, r2)
      | _ => none
    else if c = 'f' then
      match r with
      | 'a' :: 'l' :: 's' :: 'e' :: r2 => some (.jbool false, r2)
      | _ => none
    else if c = '"' then
      (parseStringBody r).map fun p => (.jstr p.1, p.2)
    else if c = '[' then
      (parseElems fuel r).map fun p => (.jarr p.1, p.2)
    else if c = '{' then
      (parseFields fuel r).map fun p => (.jobj p.1, p.2)
    else if c = '-' then
      match r with
      | c2 :: r2 =>
        if c2.isDigit then
          let p := parseDigitsAux r2 (c2.toNat - 48)
          some (.jnum (-(p.1 : Int)), p.2)
        else none
      | [] => none
    else if c.isDigit then
      let p := parseDigitsAux r (c.toNat - 48)
      some (.jnum (p.1 : Int), p.2)
    else none

/-- Parse the members of an array after its opening bracket. -/
def parseElems : Nat → List Char → Option (List Json × List Char)
  | 0, _ => none
  | _ + 1, [] => none
  | fuel + 1, c :: r =>
    if c = ']' then some ([], r)
    else
      match parseVal fuel (c :: r) with
      | none => none
      | some (v, rest) =>
        match rest with
        | ',' :: rest2 =>
          match parseElems fuel rest2 with
          | some (vs, rest3) => some (v :: vs, rest3)
          | none => none
        | ']' :: rest2 => some ([v], rest2)
        | _ => none

/-- Parse the members of an object after its opening brace. -/
def parseFields : Nat → List Char → Option (List (List Char × Json) × List Char)
  | 0, _ => none
  | _ + 1, [] => none
  | fuel + 1, c :: r =>
    if c = '}' then some ([], r)
    else if c = '"' then
      match parseStringBody r with
      | none => none
      | some (k, rest) =>
        match rest with
        | ':' :: rest2 =>
          match parseVal fuel rest2 with
          | none => none
          | some (v, rest3) =>
            match rest3 with
            | ',' :: rest4 =>
              match parseFields fuel rest4 with
              | some (fs, rest5) => some ((k, v) :: fs, rest5)
              | none => none
            | '}' :: rest4 => some ([(k, v)], rest4)
            | _ => none
        | _ => none
    else none

end

mutual

/-- Fuel needed by `parseVal` on a document: one unit per parser invocation
along the deepest chain of nested calls. -/
def fcost : Json → Nat
  | .jnull | .jbool _ | .jnum _ | .jstr _ => 1
  | .jarr es => 1 + elemsCost es
  | .jobj fs => 1 + fieldsCost fs

/-- Fuel needed by `parseElems` on an element list. -/
def elemsCost : List Json → Nat
  | [] => 1
  | x :: xs => 1 + max (fcost x) (elemsCost xs)

/-- Fuel needed by `parseFields` on a member list. -/
def fieldsCost : List (List Char × Json) → Nat
  | [] => 1
  | (_, v) :: fs => 1 + max (fcost v) (fieldsCost fs)

end

/-- `json.Unmarshal`'s syntactic layer: parse a complete compact document.
The fuel `2 * length + 2` dominates `fcost` of anything renderable in that
many bytes. -/
def parseJson (l : List Char) : Option Json :=
  match parseVal (2 * l.length + 2) l with
  | some (j, []) => some j
  | _ => none

/-! ## The notification envelope (`src/dto/messages.go` lines 10–124) -/

/-- `NotificationMessage`: the wire envelope.  `Payload` is the
`json.RawMessage` holding the payload's marshalled document; `CreatedAt` is
the RFC3339 rendering of the creation time (the `time.Time` is opaque to the
claims). -/
structure NotificationMessage where
  ID : List Char
  Type_ : List Char
  Payload : Json
  CreatedAt : List Char
  Headers : List (List Char × Json)
deriving Repr

/-- `NewNotificationMessage` (lines 106–119): marshal the payload, stamp the
creation time, start with an empty header map. -/
def NewNotificationMessage (id msgType : List Char) (payload : Json)
    (createdAt : List Char) : NotificationMessage :=
  { ID := id, Type_ := msgType, Payload := payload,
    CreatedAt := createdAt, Headers := [] }

/-- `json.Marshal` of a `NotificationMessage`: struct fields in declaration
order under their JSON tags; the `headers,omitempty` field is dropped when
the map is empty; the raw payload document is embedded verbatim; the
`created_at` time marshals as a string. -/
def marshalNotificationMessage (m : NotificationMessage) : Json :=
  .jobj ([(['i', 'd'], .jstr m.ID),
          (['t', 'y', 'p', 'e'], .jstr m.Type_),
          (['p', 'a', 'y', 'l', 'o', 'a', 'd'], m.Payload),
          (['c', 'r', 'e', 'a', 't', 'e', 'd', '_', 'a', 't'], .jstr m.CreatedAt)] ++
        (if m.Headers.isEmpty then []
         else [(['h', 'e', 'a', 'd', 'e', 'r', 's'], .jobj m.Headers)]))

/-- First-match lookup among an object's members, as `json.Unmarshal` matches
struct fields by tag. -/
def lookupField (fs : List (List Char × Json)) (k : List Char) : Option Json :=
  match fs with
  | [] => none
  | (k', v) :: rest => if k' = k then some v else lookupField rest k

/-- Decode a `string`-typed struct field: absent or `null` leaves the zero
value, a string is taken as is, any other document is a type error. -/
def decodeStrField (fs : List (List Char × Json)) (k : List Char) :
    Option (List Char) :=
  match lookupField fs k with
  | none => some []
  | some .jnull => some []
  | some (.jstr s) => some s
  | some _ => none

/-- Decode a `json.RawMessage` field: the raw subdocument; an absent field is
the nil raw message, which marshals as (and is modelled by) `null`. -/
def decodeRawField (fs : List (List Char × Json)) (k : List Char) : Option Json :=
  match lookupField fs k with
  | none => some .jnull
  | some v => some v

/-- Decode the `map[string]interface{}` headers field: absent or `null` is
the nil map, an object gives its members, anything else is a type error. -/
def decodeHeadersField (fs : List (List Char × Json)) (k : List Char) :
    Option (List (List Char × Json)) :=
  match lookupField fs k with
  | none => some []
  | some .jnull => some []
  | some (.jobj hs) => some hs
  | some _ => none

/-- `json.Unmarshal` of envelope bytes into a `NotificationMessage`. -/
def unmarshalNotificationMessage (l : List Char) : Option NotificationMessage :=
  match parseJson l with
  | some (.jobj fs) =>
    (decodeStrField fs ['i', 'd']).bind fun id =>
    (decodeStrField fs ['t', 'y', 'p', 'e']).bind fun ty =>
    (decodeRawField fs ['p', 'a', 'y', 'l', 'o', 'a', 'd']).bind fun pl =>
    (decodeStrField fs ['c', 'r', 'e', 'a', 't', 'e', 'd', '_', 'a', 't']).bind fun ca =>
    (decodeHeadersField fs ['h', 'e', 'a', 'd', 'e', 'r', 's']).map fun hd =>
      { ID := id, Type_ := ty, Payload := pl, CreatedAt := ca, Headers := hd }
  | _ => none

/-- `UnmarshalPayload` (lines 122–124): unmarshal the stored raw payload
document back into the payload's type — at document level, the stored
document itself. -/
def UnmarshalPayload (m : NotificationMessage) : Json :=
  m.Payload

/-! ## Helper lemmas -/

/-! ### String-level JSON lemmas -/

theorem parseHexDigit_hexDigit : ∀ n < 16, parseHexDigit (hexDigit n) = some n := by
  decide

theorem isDigit_marker_ne (c : Char) (h : c.isDigit = true) :
    c ≠ 'n' ∧ c ≠ 't' ∧ c ≠ 'f' ∧ c ≠ '"' ∧ c ≠ '[' ∧ c ≠ '{' ∧ c ≠ '-' ∧
    c ≠ ']' ∧ c ≠ '}' ∧ c ≠ ',' ∧ c ≠ ':' := by
  refine ⟨?_, ?_, ?_, ?_, ?_, ?_, ?_, ?_, ?_, ?_, ?_⟩ <;>
    first
    | (rintro rfl; revert h; decide)

theorem escapeList_cons (c : Char) (s : List Char) :
    escapeList (c :: s) = goEscapeChar c ++ escapeList s := by
  simp [escapeList]

theorem parseStringBody_u (h1 h2 h3 h4 : Char) (a b c3 d : Nat) (r3 : List Char)
    (e1 : parseHexDigit h1 = some a) (e2 : parseHexDigit h2 = some b)
    (e3 : parseHexDigit h3 = some c3) (e4 : parseHexDigit h4 = some d) :
    parseStringBody ('\\' :: 'u' :: h1 :: h2 :: h3 :: h4 :: r3)
      = (parseStringBody r3).map fun p =>
          (Char.ofNat (((a * 16 + b) * 16 + c3) * 16 + d) :: p.1, p.2) := by
  rw [parseStringBody.eq_def]
  simp [e1, e2, e3, e4]

theorem parseStringBody_escape (s rest : List Char) :
    parseStringBody (escapeList s ++ '"' :: rest) = some (s, rest) := by
  induction s with
  | nil =>
    have h : escapeList [] ++ '"' :: rest = '"' :: rest := by simp [escapeList]
    rw [h, parseStringBody.eq_def]
    simp
  | cons c s ih =>
    rw [escapeList_cons, List.append_assoc]
    by_cases h1 : c = '"'
    · subst h1
      have hv : goEscapeChar '"' = ['\\', '"'] := by decide
      rw [hv]
      simp only [List.cons_append, List.nil_append]
      rw [parseStringBody.eq_def]
      simp [ih]
    · by_cases h2 : c = '\\'
      · subst h2
        have hv : goEscapeChar '\\' = ['\\', '\\'] := by decide
        rw [hv]
        simp only [List.cons_append, List.nil_append]
        rw [parseStringBody.eq_def]
        simp [ih]
      · by_cases h3 : c = '\n'
        · subst h3
          have hv : goEscapeChar '\n' = ['\\', 'n'] := by decide
          rw [hv]
          simp only [List.cons_append, List.nil_append]
          rw [parseStringBody.eq_def]
          simp [ih]
        · by_cases h4 : c = '\r'
          · subst h4
            have hv : goEscapeChar '\r' = ['\\', 'r'] := by decide
            rw [hv]
            simp only [List.cons_append, List.nil_append]
            rw [parseStringBody.eq_def]
            simp [ih]
          · by_cases h5 : c = '\t'
            · subst h5
              have hv : goEscapeChar '\t' = ['\\', 't'] := by decide
              rw [hv]
              simp only [List.cons_append, List.nil_append]
              rw [parseStringBody.eq_def]
              simp [ih]
            · by_cases h6 : c.toNat < 32
              · have hv : goEscapeChar c
                    = ['\\', 'u', '0', '0', hexDigit (c.toNat / 16), hexDigit (c.toNat % 16)] := by
                  simp [goEscapeChar, h1, h2, h3, h4, h5, h6]
                rw [hv]
                have hhi := parseHexDigit_hexDigit (c.toNat / 16) (by omega)
                have hlo := parseHexDigit_hexDigit (c.toNat % 16) (by omega)
                rw [List.cons_append, List.cons_append, List.cons_append,
                  List.cons_append, List.cons_append, List.cons_append,
                  List.nil_append]
                rw [parseStringBody_u '0' '0' (hexDigit (c.toNat / 16))
                  (hexDigit (c.toNat % 16)) 0 0 (c.toNat / 16) (c.toNat % 16) _
                  (by decide) (by decide) hhi hlo]
                have harith : ((0 * 16 + 0) * 16 + c.toNat / 16) * 16 + c.toNat % 16
                    = c.toNat := by omega
                rw [harith, Char.ofNat_toNat, ih]
                rfl
              · by_cases h7 : c = '<'
                · subst h7
                  have hv : goEscapeChar '<' = ['\\', 'u', '0', '0', '3', 'c'] := by decide
                  rw [hv]
                  simp only [List.cons_append, List.nil_append]
                  rw [parseStringBody_u '0' '0' '3' 'c' 0 0 3 12 _
                    (by decide) (by decide) (by decide) (by decide), ih]
                  rfl
                · by_cases h8 : c = '>'
                  · subst h8
                    have hv : goEscapeChar '>' = ['\\', 'u', '0', '0', '3', 'e'] := by decide
                    rw [hv]
                    simp only [List.cons_append, List.nil_append]
                    rw [parseStringBody_u '0' '0' '3' 'e' 0 0 3 14 _
                      (by decide) (by decide) (by decide) (by decide), ih]
                    rfl
                  · by_cases h9 : c = '&'
                    · subst h9
                      have hv : goEscapeChar '&' = ['\\', 'u', '0', '0', '2', '6'] := by decide
                      rw [hv]
                      simp only [List.cons_append, List.nil_append]
                      rw [parseStringBody_u '0' '0' '2' '6' 0 0 2 6 _
                        (by decide) (by decide) (by decide) (by decide), ih]
                      rfl
                    · by_cases h10 : c.toNat = 0x2028
                      · have hv : goEscapeChar c = ['\\', 'u', '2', '0', '2', '8'] := by
                          simp [goEscapeChar, h1, h2, h3, h4, h5, h6, h7, h8, h9, h10]
                        rw [hv]
                        simp only [List.cons_append, List.nil_append]
                        rw [parseStringBody_u '2' '0' '2' '8' 2 0 2 8 _
                          (by decide) (by decide) (by decide) (by decide), ih]
                        have : (((2 * 16 + 0) * 16 + 2) * 16 + 8) = c.toNat := by omega
                        rw [this, Char.ofNat_toNat]
                        rfl
                      · by_cases h11 : c.toNat = 0x2029
                        · have hv : goEscapeChar c = ['\\', 'u', '2', '0', '2', '9'] := by
                            simp [goEscapeChar, h1, h2, h3, h4, h5, h6, h7, h8, h9, h10, h11]
                          rw [hv]
                          simp only [List.cons_append, List.nil_append]
                          rw [parseStringBody_u '2' '0' '2' '9' 2 0 2 9 _
                            (by decide) (by decide) (by decide) (by decide), ih]
                          have : (((2 * 16 + 0) * 16 + 2) * 16 + 9) = c.toNat := by omega
                          rw [this, Char.ofNat_toNat]
                          rfl
                        · have hv : goEscapeChar c = [c] := by
                            simp [goEscapeChar, h1, h2, h3, h4, h5, h6, h7, h8, h9, h10, h11]
                          rw [hv]
                          simp only [List.cons_append, List.nil_append]
                          rw [parseStringBody.eq_def]
                          simp [h1, h2, h6, ih]

/-! ### Decimal digit lemmas -/

theorem digitChar_facts : ∀ d < 10,
    (Char.ofNat (48 + d)).isDigit = true ∧ (Char.ofNat (48 + d)).toNat = 48 + d := by
  decide

theorem parseDigitsAux_stop (l : List Char) (acc : Nat)
    (h : noLeadingDigit l = true) : parseDigitsAux l acc = (acc, l) := by
  cases l with
  | nil => rfl
  | cons c r =>
    have hc : c.isDigit = false := by simpa [noLeadingDigit] using h
    simp [parseDigitsAux, hc]

theorem parseDigitsAux_chain (ds : List Nat) (hds : ∀ d ∈ ds, d < 10)
    (rest : List Char) (hrest : noLeadingDigit rest = true) (acc : Nat) :
    parseDigitsAux ((ds.map fun d => Char.ofNat (48 + d)) ++ rest) acc
      = (ds.foldl (fun a d => a * 10 + d) acc, rest) := by
  induction ds generalizing acc with
  | nil => simpa using parseDigitsAux_stop rest acc hrest
  | cons d ds ih =>
    have hd := digitChar_facts d (hds d (by simp))
    have hds' : ∀ x ∈ ds, x < 10 := fun x hx => hds x (by simp [hx])
    simp only [List.map_cons, List.cons_append, List.foldl_cons]
    rw [parseDigitsAux, if_pos hd.1, hd.2]
    have hsub : acc * 10 + (48 + d - 48) = acc * 10 + d := by omega
    rw [hsub]
    exact ih hds' (acc * 10 + d)

theorem foldr_digits_eq_ofDigits (l : List Nat) :
    l.foldr (fun d a => a * 10 + d) 0 = Nat.ofDigits 10 l := by
  induction l with
  | nil => simp [Nat.ofDigits]
  | cons d l ih =>
    simp only [List.foldr_cons, Nat.ofDigits_cons, ih]
    ring

theorem natChars_parse (m : Nat) (rest : List Char)
    (hrest : noLeadingDigit rest = true) :
    ∃ c r, natChars m ++ rest = c :: r ∧ c.isDigit = true ∧
      parseDigitsAux r (c.toNat - 48) = (m, rest) := by
  by_cases hm : m = 0
  · subst hm
    refine ⟨'0', rest, by simp [natChars], by decide, ?_⟩
    have h0 : '0'.toNat - 48 = 0 := by decide
    rw [h0]
    exact parseDigitsAux_stop rest 0 hrest
  · have hne : Nat.digits 10 m ≠ [] := Nat.digits_ne_nil_iff_ne_zero.mpr hm
    obtain ⟨d, ds, hds⟩ :=
      List.exists_cons_of_ne_nil (l := (Nat.digits 10 m).reverse) (by simpa using hne)
    have hmem : ∀ x ∈ d :: ds, x < 10 := by
      intro x hx
      have hx' : x ∈ Nat.digits 10 m := by
        rw [← List.mem_reverse, hds]
        exact hx
      exact Nat.digits_lt_base (by norm_num) hx'
    have hd10 : d < 10 := hmem d (by simp)
    have hfacts := digitChar_facts d hd10
    have hnat : natChars m
        = Char.ofNat (48 + d) :: (ds.map fun x => Char.ofNat (48 + x)) := by
      simp [natChars, hm, hds]
    refine ⟨Char.ofNat (48 + d), (ds.map fun x => Char.ofNat (48 + x)) ++ rest,
      by simp [hnat], hfacts.1, ?_⟩
    rw [hfacts.2]
    have hsub : 48 + d - 48 = d := by omega
    rw [hsub]
    rw [parseDigitsAux_chain ds (fun x hx => hmem x (by simp [hx])) rest hrest d]
    have h1 : (d :: ds).foldl (fun a x => a * 10 + x) 0 = m := by
      rw [← hds, List.foldl_reverse, foldr_digits_eq_ofDigits]
      exact Nat.ofDigits_digits 10 m
    simp only [List.foldl_cons, Nat.zero_mul, Nat.zero_add] at h1
    rw [h1]

theorem natChars_cons (m : Nat) :
    ∃ c r, natChars m = c :: r ∧ c.isDigit = true := by
  obtain ⟨c, r, hcr, hdig, _⟩ := natChars_parse m [] rfl
  exact ⟨c, r, by simpa using hcr, hdig⟩

/-! ### Renderer and parser structure lemmas -/

theorem fcost_pos (j : Json) : 1 ≤ fcost j := by
  cases j <;> simp [fcost]

theorem elemsCost_pos (es : List Json) : 1 ≤ elemsCost es := by
  cases es <;> simp [elemsCost]

theorem fieldsCost_pos (fs : List (List Char × Json)) : 1 ≤ fieldsCost fs := by
  cases fs with
  | nil => simp [fieldsCost]
  | cons kv fs => cases kv; simp [fieldsCost]

theorem parseVal_renderInt (n : Int) (fuel : Nat) (rest : List Char)
    (hrest : noLeadingDigit rest = true) :
    parseVal (fuel + 1) (renderInt n ++ rest) = some (Json.jnum n, rest) := by
  by_cases hn : n < 0
  · have hr : renderInt n = '-' :: natChars n.natAbs := by simp [renderInt, hn]
    obtain ⟨c, r, hcr, hdig, hparse⟩ := natChars_parse n.natAbs rest hrest
    rw [hr, List.cons_append, hcr]
    simp only [parseVal]
    simp [hdig, hparse]
    rw [abs_of_neg hn, neg_neg]
  · have hr : renderInt n = natChars n.toNat := by simp [renderInt, hn]
    obtain ⟨c, r, hcr, hdig, hparse⟩ := natChars_parse n.toNat rest hrest
    have hne := isDigit_marker_ne c hdig
    rw [hr, hcr]
    simp only [parseVal]
    simp [hne.1, hne.2.1, hne.2.2.1, hne.2.2.2.1, hne.2.2.2.2.1,
      hne.2.2.2.2.2.1, hne.2.2.2.2.2.2.1, hdig, hparse]
    omega

theorem render_head (j : Json) :
    ∃ c r, render j = c :: r ∧
      (c = 'n' ∨ c = 't' ∨ c = 'f' ∨ c = '"' ∨ c = '[' ∨ c = '{' ∨ c = '-' ∨
        c.isDigit = true) := by
  cases j with
  | jnull => exact ⟨'n', ['u', 'l', 'l'], by simp [render], by simp⟩
  | jbool b =>
    cases b with
    | false => exact ⟨'f', ['a', 'l', 's', 'e'], by simp [render], by simp⟩
    | true => exact ⟨'t', ['r', 'u', 'e'], by simp [render], by simp⟩
  | jnum n =>
    by_cases hn : n < 0
    · exact ⟨'-', natChars n.natAbs, by simp [render, renderInt, hn], by simp⟩
    · obtain ⟨c, r, hcr, hdig⟩ := natChars_cons n.toNat
      exact ⟨c, r, by simp [render, renderInt, hn, hcr], by simp [hdig]⟩
  | jstr s =>
    exact ⟨'"', escapeList s ++ ['"'], by simp [render, renderString], by simp⟩
  | jarr es => exact ⟨'[', renderElemsAll es, by simp [render], by simp⟩
  | jobj fs => exact ⟨'{', renderFieldsAll fs, by simp [render], by simp⟩

theorem render_head_ne (j : Json) :
    ∃ c r, render j = c :: r ∧ c ≠ ']' ∧ c ≠ '}' := by
  obtain ⟨c, r, hcr, hhead⟩ := render_head j
  refine ⟨c, r, hcr, ?_, ?_⟩ <;>
    rcases hhead with h | h | h | h | h | h | h | h <;>
      first
      | (subst h; decide)
      | (have hm := isDigit_marker_ne c h
         first
         | exact hm.2.2.2.2.2.2.2.1
         | exact hm.2.2.2.2.2.2.2.2.1)

theorem render_ne_nil (j : Json) : render j ≠ [] := by
  obtain ⟨c, r, hcr, _⟩ := render_head j
  simp [hcr]

theorem noLeadingDigit_elemsTail (xs : List Json) (rest : List Char) :
    noLeadingDigit (renderElemsTail xs ++ ']' :: rest) = true := by
  cases xs with
  | nil => simp [renderElemsTail, noLeadingDigit]
  | cons y ys => simp [renderElemsTail, noLeadingDigit]

theorem noLeadingDigit_fieldsTail (fs : List (List Char × Json)) (rest : List Char) :
    noLeadingDigit (renderFieldsTail fs ++ '}' :: rest) = true := by
  cases fs with
  | nil => simp [renderFieldsTail, noLeadingDigit]
  | cons kv fs =>
    cases kv
    simp [renderFieldsTail, noLeadingDigit]

/-- Round trip at every size level: parsing a rendered value (followed by a
non-digit continuation) yields the value and the untouched continuation, for
every fuel at least the value's cost; likewise for array elements and object
members after their opening bracket. -/
theorem parse_render_strong : ∀ n : Nat,
    (∀ j : Json, sizeOf j ≤ n → ∀ fuel rest, fcost j ≤ fuel →
      noLeadingDigit rest = true →
      parseVal fuel (render j ++ rest) = some (j, rest)) ∧
    (∀ es : List Json, sizeOf es ≤ n → ∀ fuel rest, elemsCost es ≤ fuel →
      noLeadingDigit rest = true →
      parseElems fuel (renderElemsAll es ++ rest) = some (es, rest)) ∧
    (∀ fs : List (List Char × Json), sizeOf fs ≤ n → ∀ fuel rest,
      fieldsCost fs ≤ fuel → noLeadingDigit rest = true →
      parseFields fuel (renderFieldsAll fs ++ rest) = some (fs, rest)) := by
  intro n
  induction n using Nat.strong_induction_on with
  | _ n ih =>
    refine ⟨?_, ?_, ?_⟩
    · intro j hsz fuel rest hf hrest
      obtain ⟨k, rfl⟩ : ∃ k, fuel = k + 1 := ⟨fuel - 1, by have := fcost_pos j; omega⟩
      cases j with
      | jnull =>
        have hrw : render Json.jnull ++ rest = 'n' :: 'u' :: 'l' :: 'l' :: rest := by
          simp [render]
        rw [hrw]
        simp only [parseVal]
        simp
      | jbool b =>
        cases b with
        | true =>
          have hrw : render (Json.jbool true) ++ rest
              = 't' :: 'r' :: 'u' :: 'e' :: rest := by
            simp [render]
          rw [hrw]
          simp only [parseVal]
          simp
        | false =>
          have hrw : render (Json.jbool false) ++ rest
              = 'f' :: 'a' :: 'l' :: 's' :: 'e' :: rest := by
            simp [render]
          rw [hrw]
          simp only [parseVal]
          simp
      | jnum m =>
        have hrw : render (Json.jnum m) = renderInt m := by simp [render]
        rw [hrw]
        exact parseVal_renderInt m k rest hrest
      | jstr s =>
        have hrw : render (Json.jstr s) ++ rest
            = '"' :: (escapeList s ++ '"' :: rest) := by
          simp [render, renderString]
        rw [hrw]
        simp only [parseVal]
        simp [parseStringBody_escape]
      | jarr es =>
        have hq : sizeOf (Json.jarr es) = 1 + sizeOf es := by simp
        have hc : fcost (Json.jarr es) = 1 + elemsCost es := by simp [fcost]
        have h2 := (ih (n - 1) (by omega)).2.1 es (by omega) k rest (by omega) hrest
        have hrw : render (Json.jarr es) ++ rest
            = '[' :: (renderElemsAll es ++ rest) := by
          simp [render]
        rw [hrw]
        simp only [parseVal]
        simp [h2]
      | jobj fs =>
        have hq : sizeOf (Json.jobj fs) = 1 + sizeOf fs := by simp
        have hc : fcost (Json.jobj fs) = 1 + fieldsCost fs := by simp [fcost]
        have h2 := (ih (n - 1) (by omega)).2.2 fs (by omega) k rest (by omega) hrest
        have hrw : render (Json.jobj fs) ++ rest
            = '{' :: (renderFieldsAll fs ++ rest) := by
          simp [render]
        rw [hrw]
        simp only [parseVal]
        simp [h2]
    · intro es hsz fuel rest hf hrest
      obtain ⟨k, rfl⟩ : ∃ k, fuel = k + 1 :=
        ⟨fuel - 1, by have := elemsCost_pos es; omega⟩
      cases es with
      | nil =>
        have hrw : renderElemsAll [] ++ rest = ']' :: rest := by simp [renderElemsAll]
        rw [hrw]
        simp only [parseElems]
        simp
      | cons x xs =>
        have hq : sizeOf (x :: xs) = 1 + sizeOf x + sizeOf xs := by simp
        have hc : elemsCost (x :: xs) = 1 + max (fcost x) (elemsCost xs) := by
          simp [elemsCost]
        have hm1 := Nat.le_max_left (fcost x) (elemsCost xs)
        have hm2 := Nat.le_max_right (fcost x) (elemsCost xs)
        have hn1 : n - 1 < n := by omega
        obtain ⟨c, cr, hcr, hne1, hne2⟩ := render_head_ne x
        cases xs with
        | nil =>
          have hpx := (ih (n - 1) hn1).1 x (by omega) k (']' :: rest) (by omega)
            (by simp [noLeadingDigit])
          have hrw : renderElemsAll [x] ++ rest = c :: (cr ++ ']' :: rest) := by
            simp [renderElemsAll, renderElemsTail, hcr]
          rw [hrw]
          simp only [parseElems]
          rw [if_neg hne1]
          have hbx : c :: (cr ++ ']' :: rest) = render x ++ (']' :: rest) := by
            simp [hcr]
          rw [hbx, hpx]
          simp
        | cons y ys =>
          have hq2 : sizeOf (y :: ys) = 1 + sizeOf y + sizeOf ys := by simp
          have hrec := (ih (n - 1) hn1).2.1 (y :: ys) (by omega) k rest (by omega)
            hrest
          have hpx := (ih (n - 1) hn1).1 x (by omega) k
            (',' :: (renderElemsAll (y :: ys) ++ rest)) (by omega)
            (by simp [noLeadingDigit])
          have hrw : renderElemsAll (x :: y :: ys) ++ rest
              = c :: (cr ++ ',' :: (renderElemsAll (y :: ys) ++ rest)) := by
            simp [renderElemsAll, renderElemsTail, hcr]
          rw [hrw]
          simp only [parseElems]
          rw [if_neg hne1]
          have hbx : c :: (cr ++ ',' :: (renderElemsAll (y :: ys) ++ rest))
              = render x ++ (',' :: (renderElemsAll (y :: ys) ++ rest)) := by
            simp [hcr]
          rw [hbx, hpx]
          simp [hrec]
    · intro fs hsz fuel rest hf hrest
      obtain ⟨k, rfl⟩ : ∃ k, fuel = k + 1 :=
        ⟨fuel - 1, by have := fieldsCost_pos fs; omega⟩
      cases fs with
      | nil =>
        have hrw : renderFieldsAll [] ++ rest = '}' :: rest := by
          simp [renderFieldsAll]
        rw [hrw]
        simp only [parseFields]
        simp
      | cons kv fs' =>
        obtain ⟨key, v⟩ := kv
        have hle : sizeOf v ≤ n - 1 ∧ sizeOf fs' ≤ n - 1 ∧ n - 1 < n := by
          have h := hsz
          simp only [List.cons.sizeOf_spec, Prod.mk.sizeOf_spec] at h
          omega
        have hc : fieldsCost ((key, v) :: fs') = 1 + max (fcost v) (fieldsCost fs') := by
          simp [fieldsCost]
        have hm1 := Nat.le_max_left (fcost v) (fieldsCost fs')
        have hm2 := Nat.le_max_right (fcost v) (fieldsCost fs')
        cases fs' with
        | nil =>
          have hkey := parseStringBody_escape key (':' :: (render v ++ '}' :: rest))
          have hpv := (ih (n - 1) hle.2.2).1 v hle.1 k ('}' :: rest) (by omega)
            (by simp [noLeadingDigit])
          have hrw : renderFieldsAll [(key, v)] ++ rest
              = '"' :: (escapeList key ++ '"' :: ':' :: (render v ++ '}' :: rest)) := by
            simp [renderFieldsAll, renderFieldsTail, renderString]
          rw [hrw]
          simp only [parseFields]
          simp [hkey, hpv]
        | cons kv2 fs'' =>
          obtain ⟨key2, v2⟩ := kv2
          have hrec := (ih (n - 1) hle.2.2).2.2 ((key2, v2) :: fs'') hle.2.1 k rest
            (by omega) hrest
          have hkey := parseStringBody_escape key
            (':' :: (render v ++ ',' :: (renderFieldsAll ((key2, v2) :: fs'') ++ rest)))
          have hpv := (ih (n - 1) hle.2.2).1 v hle.1 k
            (',' :: (renderFieldsAll ((key2, v2) :: fs'') ++ rest)) (by omega)
            (by simp [noLeadingDigit])
          have hrw : renderFieldsAll ((key, v) :: (key2, v2) :: fs'') ++ rest
              = '"' :: (escapeList key ++ '"' :: ':' ::
                  (render v ++ ',' :: (renderFieldsAll ((key2, v2) :: fs'') ++ rest))) := by
            simp [renderFieldsAll, renderFieldsTail, renderString]
          rw [hrw]
          simp only [parseFields]
          simp [hkey, hpv, hrec]

theorem render_length_pos (j : Json) : 1 ≤ (render j).length := by
  obtain ⟨c, r, hcr, _⟩ := render_head j
  simp [hcr]

/-- The parser fuel needed for a rendered document is at most twice its byte
length, so `parseJson`'s fuel choice always suffices. -/
theorem cost_le_render : ∀ n : Nat,
    (∀ j : Json, sizeOf j ≤ n → fcost j ≤ 2 * (render j).length) ∧
    (∀ es : List Json, sizeOf es ≤ n → elemsCost es ≤ 2 * (renderElemsAll es).length) ∧
    (∀ fs : List (List Char × Json), sizeOf fs ≤ n →
      fieldsCost fs ≤ 2 * (renderFieldsAll fs).length) := by
  intro n
  induction n using Nat.strong_induction_on with
  | _ n ih =>
    refine ⟨?_, ?_, ?_⟩
    · intro j hsz
      have hlen := render_length_pos j
      cases j with
      | jnull =>
        have h1 : fcost Json.jnull = 1 := by simp [fcost]
        omega
      | jbool b =>
        have h1 : fcost (Json.jbool b) = 1 := by simp [fcost]
        omega
      | jnum m =>
        have h1 : fcost (Json.jnum m) = 1 := by simp [fcost]
        omega
      | jstr s =>
        have h1 : fcost (Json.jstr s) = 1 := by simp [fcost]
        omega
      | jarr es =>
        have hq : sizeOf (Json.jarr es) = 1 + sizeOf es := by simp
        have h2 := (ih (n - 1) (by omega)).2.1 es (by omega)
        have hrl : (render (Json.jarr es)).length = 1 + (renderElemsAll es).length := by
          simp [render]
          omega
        have hc : fcost (Json.jarr es) = 1 + elemsCost es := by simp [fcost]
        omega
      | jobj fs =>
        have hq : sizeOf (Json.jobj fs) = 1 + sizeOf fs := by simp
        have h2 := (ih (n - 1) (by omega)).2.2 fs (by omega)
        have hrl : (render (Json.jobj fs)).length = 1 + (renderFieldsAll fs).length := by
          simp [render]
          omega
        have hc : fcost (Json.jobj fs) = 1 + fieldsCost fs := by simp [fcost]
        omega
    · intro es hsz
      cases es with
      | nil =>
        have h1 : elemsCost ([] : List Json) = 1 := by simp [elemsCost]
        have h2 : (renderElemsAll ([] : List Json)).length = 1 := by
          simp [renderElemsAll]
        omega
      | cons x xs =>
        have hq : sizeOf (x :: xs) = 1 + sizeOf x + sizeOf xs := by simp
        have hx := (ih (n - 1) (by omega)).1 x (by omega)
        have hxs := (ih (n - 1) (by omega)).2.1 xs (by omega)
        have hc : elemsCost (x :: xs) = 1 + max (fcost x) (elemsCost xs) := by
          simp [elemsCost]
        have hrl : (renderElemsAll (x :: xs)).length
            = (render x).length + (renderElemsTail xs).length + 1 := by
          simp [renderElemsAll]
          omega
        have hta : (renderElemsAll xs).length ≤ (renderElemsTail xs).length + 1 := by
          cases xs with
          | nil => simp [renderElemsAll, renderElemsTail]
          | cons y ys =>
            have ha : (renderElemsAll (y :: ys)).length
                = (render y).length + (renderElemsTail ys).length + 1 := by
              simp [renderElemsAll]
              omega
            have hb : (renderElemsTail (y :: ys)).length
                = 1 + (render y).length + (renderElemsTail ys).length := by
              simp [renderElemsTail]
              omega
            omega
        have hxlen := render_length_pos x
        rcases max_choice (fcost x) (elemsCost xs) with hm | hm <;> omega
    · intro fs hsz
      cases fs with
      | nil =>
        have h1 : fieldsCost ([] : List (List Char × Json)) = 1 := by simp [fieldsCost]
        have h2 : (renderFieldsAll ([] : List (List Char × Json))).length = 1 := by
          simp [renderFieldsAll]
        omega
      | cons kv fs' =>
        obtain ⟨key, v⟩ := kv
        have hle : sizeOf v ≤ n - 1 ∧ sizeOf fs' ≤ n - 1 ∧ n - 1 < n := by
          have h := hsz
          simp only [List.cons.sizeOf_spec, Prod.mk.sizeOf_spec] at h
          omega
        have hv := (ih (n - 1) hle.2.2).1 v hle.1
        have hfs := (ih (n - 1) hle.2.2).2.2 fs' hle.2.1
        have hc : fieldsCost ((key, v) :: fs')
            = 1 + max (fcost v) (fieldsCost fs') := by
          simp [fieldsCost]
        have hrl : (renderFieldsAll ((key, v) :: fs')).length
            = (renderString key).length + 1 + (render v).length
              + (renderFieldsTail fs').length + 1 := by
          simp [renderFieldsAll]
          omega
        have hta : (renderFieldsAll fs').length ≤ (renderFieldsTail fs').length + 1 := by
          cases fs' with
          | nil => simp [renderFieldsAll, renderFieldsTail]
          | cons kv2 fs'' =>
            obtain ⟨key2, v2⟩ := kv2
            have ha : (renderFieldsAll ((key2, v2) :: fs'')).length
                = (renderString key2).length + 1 + (render v2).length
                  + (renderFieldsTail fs'').length + 1 := by
              simp [renderFieldsAll]
              omega
            have hb : (renderFieldsTail ((key2, v2) :: fs'')).length
                = 1 + (renderString key2).length + 1 + (render v2).length
                  + (renderFieldsTail fs'').length := by
              simp [renderFieldsTail]
              omega
            omega
        have hvlen := render_length_pos v
        have hklen : 1 ≤ (renderString key).length := by
          simp [renderString]
        rcases max_choice (fcost v) (fieldsCost fs') with hm | hm <;> omega

/-- Parsing a rendered document recovers it exactly. -/
theorem parseJson_render (j : Json) : parseJson (render j) = some j := by
  have hcost := (cost_le_render (sizeOf j)).1 j le_rfl
  have h := (parse_render_strong (sizeOf j)).1 j le_rfl
    (2 * (render j).length + 2) [] (by omega) rfl
  rw [List.append_nil] at h
  simp [parseJson, h]

theorem GetSecret_snd_eq_none (cache : List (String × VaultVal)) (key : String) :
    (GetSecret cache key).2 = none := by
  unfold GetSecret
  cases lookupKey cache key with
  | none => rfl
  | some v => cases v <;> rfl

theorem Close_closed (s : ProducerState) : (Close s).closed = true := by
  unfold Close
  split
  · assumption
  · rfl

theorem Close_of_closed (s : ProducerState) (h : s.closed = true) : Close s = s := by
  unfold Close
  simp [h]

theorem runOps_closed (ops : List ProducerOp) (s : ProducerState)
    (h : s.closed = true) : (runOps s ops).closed = true := by
  induction ops generalizing s with
  | nil => exact h
  | cons op rest ih =>
    cases op with
    | close =>
      show (runOps (Close s) rest).closed = true
      exact ih (Close s) (Close_closed s)
    | send reply =>
      show (runOps (safeSendMessage s reply).2 rest).closed = true
      refine ih _ ?_
      simp [safeSendMessage, h]

theorem runOps_replicate_close (k : Nat) (s : ProducerState)
    (h : s.closed = true) : runOps s (List.replicate k ProducerOp.close) = s := by
  induction k generalizing s with
  | zero => rfl
  | succ k ih =>
    rw [List.replicate_succ]
    show runOps (Close s) (List.replicate k ProducerOp.close) = s
    rw [Close_of_closed s h]
    exact ih s h

/-! ## Claim theorems (configuration and producer) -/

/-- C1: the confirmation wait returns exactly the first-ready of the three
outcomes: the send task's reported result (nil on success, the wrapped send
error on failure) when the `done` channel is first, the context's error when
the caller's context is signalled first, and the distinct "timeout while
waiting for message delivery" error when the internal 30-second ceiling
elapses first. -/
theorem produceAndWait_first_ready (s : ProducerState) (first : FirstReady) :
    (∀ reply p o, first = FirstReady.sendResult reply →
      (safeSendMessage s reply).1 = Except.ok (p, o) →
      produceAndWait s first = none) ∧
    (∀ reply e, first = FirstReady.sendResult reply →
      (safeSendMessage s reply).1 = Except.error e →
      produceAndWait s first = some ("failed to produce message: " ++ e)) ∧
    (∀ ctxErr, first = FirstReady.ctxDone ctxErr →
      produceAndWait s first = some ctxErr) ∧
    (first = FirstReady.ceiling →
      produceAndWait s first = some "timeout while waiting for message delivery" ∧
      deliveryTimeoutSeconds = 30) := by
  refine ⟨?_, ?_, ?_, ?_⟩
  · intro reply p o hf hs
    subst hf
    simp [produceAndWait, sendTaskResult, hs]
  · intro reply e hf hs
    subst hf
    simp [produceAndWait, sendTaskResult, hs]
  · intro ctxErr hf
    subst hf
    rfl
  · intro hf
    subst hf
    exact ⟨rfl, rfl⟩

/-- Witness for C1: with a fresh producer and a context cancelled first, the
wait returns the context's error. -/
theorem produceAndWait_first_ready_witness :
    produceAndWait ⟨false, 0, 0⟩ (FirstReady.ctxDone "context canceled")
      = some "context canceled" :=
  (produceAndWait_first_ready ⟨false, 0, 0⟩
    (FirstReady.ctxDone "context canceled")).2.2.1 "context canceled" rfl

/-- C2: after a `Close`, no matter what further operations run, every send
attempt fails with "producer is closed" and leaves the state — in particular
the count of transport sends — unchanged: no network I/O happens. -/
theorem publish_after_close_fails (s : ProducerState) (ops : List ProducerOp)
    (reply : SendReply) :
    safeSendMessage (runOps (Close s) ops) reply
      = (Except.error "producer is closed", runOps (Close s) ops) := by
  have h := runOps_closed ops (Close s) (Close_closed s)
  simp [safeSendMessage, h]

/-- C3: calling `Close` N ≥ 1 times from a not-yet-closed state yields exactly
the state of the first `Close`, which releases the underlying connection
exactly once; calls 2..N are no-ops. -/
theorem close_n_times (n : Nat) (hn : 1 ≤ n) (s : ProducerState)
    (hs : s.closed = false) :
    runOps s (List.replicate n ProducerOp.close) = Close s ∧
    (Close s).releases = s.releases + 1 := by
  obtain ⟨k, rfl⟩ : ∃ k, n = k + 1 := ⟨n - 1, (Nat.succ_pred_eq_of_pos hn).symm⟩
  constructor
  · rw [List.replicate_succ]
    show runOps (Close s) (List.replicate k ProducerOp.close) = Close s
    exact runOps_replicate_close k (Close s) (Close_closed s)
  · unfold Close
    simp [hs]

/-- Witness for C3: three `Close` calls on a fresh producer equal one, and the
connection is released exactly once. -/
theorem close_n_times_witness :
    runOps ⟨false, 0, 0⟩ (List.replicate 3 ProducerOp.close) = Close ⟨false, 0, 0⟩ ∧
    (Close (⟨false, 0, 0⟩ : ProducerState)).releases = 0 + 1 :=
  close_n_times 3 (by decide) ⟨false, 0, 0⟩ rfl

/-- C4 (code bug): with a secrets cache that does not hold
`KAFKA_CONSUMER_GROUP` and a process environment that does, `Load` resolves
the compiled-in default "notification-service" — the environment variable is
never consulted for non-bootstrap keys, although the code's own doc comments
("falling back to environment variables or default values") and the spec
promise an environment fallback tier. -/
theorem load_ignores_env_for_non_bootstrap :
    (Load demoEnv none (FetchOutcome.resp (some [("data", VaultVal.vmap [])]))).map
        (fun cfg => cfg.Kafka.ConsumerGroup) = Except.ok "notification-service" ∧
    getEnv demoEnv "KAFKA_CONSUMER_GROUP" = "custom-group" ∧
    "custom-group" ≠ "notification-service" := by
  refine ⟨rfl, rfl, by decide⟩

/-- C5: for every key, a non-empty cached string that coerces to the key's
type resolves to the coerced value, and an absent key, empty value, or failed
coercion resolves to the compiled-in default (each `Load` field is one such
accessor call). -/
theorem accessor_coercion (cache : List (String × VaultVal)) (key : String)
    (dS : String) (dB : Bool) (dI : Int) :
    ((GetSecret cache key).1 ≠ "" → getConfigValue cache key dS = (GetSecret cache key).1) ∧
    ((GetSecret cache key).1 = "" → getConfigValue cache key dS = dS) ∧
    (∀ b, (GetSecret cache key).1 ≠ "" → goParseBool (GetSecret cache key).1 = some b →
      getConfigBool cache key dB = b) ∧
    ((GetSecret cache key).1 = "" ∨ goParseBool (GetSecret cache key).1 = none →
      getConfigBool cache key dB = dB) ∧
    (∀ n, (GetSecret cache key).1 ≠ "" → goAtoi (GetSecret cache key).1 = some n →
      getConfigInt cache key dI = n) ∧
    ((GetSecret cache key).1 = "" ∨ goAtoi (GetSecret cache key).1 = none →
      getConfigInt cache key dI = dI) := by
  have he := GetSecret_snd_eq_none cache key
  refine ⟨?_, ?_, ?_, ?_, ?_, ?_⟩
  · intro hv
    simp [getConfigValue, he, hv]
  · intro hv
    simp [getConfigValue, hv]
  · intro b hv hp
    simp [getConfigBool, he, hv, hp]
  · rintro (hv | hp)
    · simp [getConfigBool, hv]
    · by_cases hv : (GetSecret cache key).1 = ""
      · simp [getConfigBool, hv]
      · simp [getConfigBool, he, hv, hp]
  · intro n hv hp
    simp [getConfigInt, he, hv, hp]
  · rintro (hv | hp)
    · simp [getConfigInt, hv]
    · by_cases hv : (GetSecret cache key).1 = ""
      · simp [getConfigInt, hv]
      · simp [getConfigInt, he, hv, hp]

/-- Witness for C5: a cache holding `"10000"` under the session-timeout key
resolves the integer 10000; a cache holding `"true"` resolves the boolean. -/
theorem accessor_coercion_witness :
    getConfigInt [("KAFKA_SESSION_TIMEOUT_MS", VaultVal.vstr "15000")]
      "KAFKA_SESSION_TIMEOUT_MS" 10000 = 15000 ∧
    getConfigBool [("KAFKA_SASL_ENABLED", VaultVal.vstr "true")]
      "KAFKA_SASL_ENABLED" false = true :=
  ⟨(accessor_coercion [("KAFKA_SESSION_TIMEOUT_MS", VaultVal.vstr "15000")]
      "KAFKA_SESSION_TIMEOUT_MS" "" false 10000).2.2.2.2.1 15000
      (by decide) (by decide),
   (accessor_coercion [("KAFKA_SASL_ENABLED", VaultVal.vstr "true")]
      "KAFKA_SASL_ENABLED" "" false 0).2.2.1 true (by decide) (by decide)⟩

/-- Counterexample for C6: a response whose nested "data" map is present but
empty is accepted by both `fetchSecrets` variants and resolver construction
succeeds with an empty cache — the claim demands a "no secrets found" failure
instead. -/
theorem empty_data_map_accepted :
    NewVaultClient demoEnv none (FetchOutcome.resp (some [("data", VaultVal.vmap [])]))
      = Except.ok [] ∧
    fetchSecrets "secret/data/notifications"
      (FetchOutcome.resp (some [("data", VaultVal.vmap [])])) = Except.ok [] ∧
    fetchSecretsP1 "secret/data/notifications"
      (FetchOutcome.resp (some [("data", VaultVal.vmap [])])) = Except.ok [] := by
  refine ⟨rfl, rfl, rfl⟩

/-- C6 as amended: `fetchSecrets` fails exactly when the read errs or the
response carries no data at all — the latter with "no secrets found"; a
response with data yields the nested "data" map as the cache when it is a map
(possibly empty), and otherwise silently proceeds with an empty cache. -/
theorem fetchSecrets_failure_cases (path : String) (fetch : FetchOutcome) :
    ((∃ e, fetchSecrets path fetch = Except.error e) ↔
      (∃ e, fetch = FetchOutcome.readErr e) ∨ fetch = FetchOutcome.resp none) ∧
    (fetch = FetchOutcome.resp none →
      fetchSecrets path fetch = Except.error ("no secrets found at path: " ++ path)) ∧
    (∀ d m, fetch = FetchOutcome.resp (some d) →
      lookupKey d "data" = some (VaultVal.vmap m) →
      fetchSecrets path fetch = Except.ok m) ∧
    (∀ d, fetch = FetchOutcome.resp (some d) →
      (∀ m, lookupKey d "data" ≠ some (VaultVal.vmap m)) →
      fetchSecrets path fetch = Except.ok []) := by
  refine ⟨?_, ?_, ?_, ?_⟩
  · constructor
    · rintro ⟨e, he⟩
      match fetch with
      | .readErr e' => exact Or.inl ⟨e', rfl⟩
      | .resp none => exact Or.inr rfl
      | .resp (some d) =>
        exfalso
        simp only [fetchSecrets] at he
        split at he <;> simp at he
    · rintro (⟨e, rfl⟩ | rfl)
      · exact ⟨e, rfl⟩
      · exact ⟨"no secrets found at path: " ++ path, rfl⟩
  · rintro rfl
    rfl
  · rintro d m rfl h
    simp only [fetchSecrets]
    rw [h]
  · rintro d rfl h
    rcases hl : lookupKey d "data" with _ | v
    · simp [fetchSecrets, hl]
    · cases v with
      | vstr s => simp [fetchSecrets, hl]
      | vmap m => exact absurd hl (h m)
      | vother => simp [fetchSecrets, hl]

/-- Witness for C6's amended theorem: a nil-data response fails with the "no
secrets found" error. -/
theorem fetchSecrets_failure_cases_witness :
    fetchSecrets "secret/app" (FetchOutcome.resp none)
      = Except.error "no secrets found at path: secret/app" :=
  (fetchSecrets_failure_cases "secret/app" (FetchOutcome.resp none)).2.1 rfl

/-- Counterexample for C7: the `src/unnamed/part_001` variant of
`NewVaultClient` performs no bootstrap emptiness checks — with all three
environment variables empty, construction still proceeds to the store read
and succeeds on a well-formed response; on a read error it surfaces the
store's error, and no "environment variable is not set" message exists in
that variant. -/
theorem p1_accepts_empty_bootstrap :
    NewVaultClientP1 (fun _ => "") none
        (FetchOutcome.resp (some [("data", VaultVal.vmap [])])) = Except.ok [] ∧
    NewVaultClientP1 (fun _ => "") none (FetchOutcome.readErr "connection refused")
      = Except.error
          "failed to fetch secrets: failed to read secrets from Vault path : connection refused" := by
  refine ⟨rfl, rfl⟩

/-- C7 as amended: in the `src/config/config.go` variant, `NewVaultClient`
(hence `Load`) fails deterministically — for every client-init and fetch
outcome, i.e. before the store is contacted — whenever a bootstrap
environment variable is empty, with a distinct message per missing variable;
the `src/unnamed/part_001` variant performs no such checks: its outcome never
depends on `VAULT_ADDR` or `VAULT_TOKEN`, only on the client-init outcome,
the path, and what the store read returns. -/
theorem bootstrap_env_checks (env : String → String) (ci : Option String)
    (fetch : FetchOutcome) :
    (getEnv env "VAULT_ADDR" = "" →
      NewVaultClient env ci fetch = Except.error "VAULT_ADDR environment variable is not set" ∧
      Load env ci fetch = Except.error "VAULT_ADDR environment variable is not set") ∧
    (getEnv env "VAULT_ADDR" ≠ "" → getEnv env "VAULT_TOKEN" = "" →
      NewVaultClient env ci fetch = Except.error "VAULT_TOKEN environment variable is not set") ∧
    (getEnv env "VAULT_ADDR" ≠ "" → getEnv env "VAULT_TOKEN" ≠ "" →
      getEnv env "VAULT_PATH" = "" →
      NewVaultClient env ci fetch = Except.error "VAULT_PATH environment variable is not set") ∧
    ((("VAULT_ADDR environment variable is not set" : String)
        ≠ "VAULT_TOKEN environment variable is not set") ∧
     (("VAULT_ADDR environment variable is not set" : String)
        ≠ "VAULT_PATH environment variable is not set") ∧
     (("VAULT_TOKEN environment variable is not set" : String)
        ≠ "VAULT_PATH environment variable is not set")) ∧
    (∀ env' : String → String,
      getEnv env "VAULT_PATH" = getEnv env' "VAULT_PATH" →
      NewVaultClientP1 env ci fetch = NewVaultClientP1 env' ci fetch) := by
  refine ⟨?_, ?_, ?_, ⟨by decide, by decide, by decide⟩, ?_⟩
  · intro ha
    have h1 : NewVaultClient env ci fetch
        = Except.error "VAULT_ADDR environment variable is not set" := by
      unfold NewVaultClient
      simp [ha]
    exact ⟨h1, by unfold Load; rw [h1]⟩
  · intro ha ht
    unfold NewVaultClient
    simp [ha, ht]
  · intro ha ht hp
    unfold NewVaultClient
    simp [ha, ht, hp]
  · intro env' h
    unfold NewVaultClientP1
    rw [h]

/-- Witness for C7: with an entirely empty environment, the config.go variant
fails with the VAULT_ADDR message whatever the store would have answered. -/
theorem bootstrap_env_checks_witness :
    NewVaultClient (fun _ => "") none (FetchOutcome.resp (some []))
      = Except.error "VAULT_ADDR environment variable is not set" :=
  ((bootstrap_env_checks (fun _ => "") none (FetchOutcome.resp (some []))).1 rfl).1

/-- C8: the producer constructor fails on an empty broker string and otherwise
derives the broker list by splitting on commas and trimming each element; in
particular "b1:9092, b2:9092" yields exactly ["b1:9092", "b2:9092"]. -/
theorem broker_list_derivation (cfg : KafkaConfig) :
    (cfg.Brokers = "" →
      NewNotificationProducer cfg = Except.error "Kafka brokers not configured") ∧
    (cfg.Brokers ≠ "" →
      NewNotificationProducer cfg
        = Except.ok ((goSplitComma cfg.Brokers).map goTrimSpace)) ∧
    (cfg.Brokers = "b1:9092, b2:9092" →
      NewNotificationProducer cfg = Except.ok ["b1:9092", "b2:9092"]) := by
  refine ⟨?_, ?_, ?_⟩
  · intro h
    simp [NewNotificationProducer, h]
  · intro h
    simp [NewNotificationProducer, h]
  · intro h
    unfold NewNotificationProducer
    rw [h]
    rfl

/-- Witness for C8: the constructor on the concrete two-broker string. -/
theorem broker_list_derivation_witness :
    NewNotificationProducer
      { Brokers := "b1:9092, b2:9092", EmailTopic := "", SmsTopic := "",
        FeedbackTopic := "", ConsumerGroup := "", AutoOffsetReset := "",
        EnableAutoCommit := true, SessionTimeoutMs := 10000,
        SASLEnabled := false, SASLUsername := "", SASLPassword := "",
        SASLMechanism := "PLAIN" }
      = Except.ok ["b1:9092", "b2:9092"] :=
  (broker_list_derivation _).2.2 rfl

/-- C10: `GetSecret` never returns an error; a key that is absent or holds a
non-string value yields the empty string, which every typed accessor treats
as a miss resolving to its compiled-in default. -/
theorem getSecret_never_errors (cache : List (String × VaultVal)) (key : String)
    (dS : String) (dB : Bool) (dI : Int) :
    (GetSecret cache key).2 = none ∧
    ((∀ v, lookupKey cache key ≠ some (VaultVal.vstr v)) →
      (GetSecret cache key).1 = "" ∧
      getConfigValue cache key dS = dS ∧
      getConfigBool cache key dB = dB ∧
      getConfigInt cache key dI = dI) := by
  refine ⟨GetSecret_snd_eq_none cache key, ?_⟩
  intro h
  have hv : (GetSecret cache key).1 = "" := by
    unfold GetSecret
    rcases hl : lookupKey cache key with _ | v
    · rfl
    · cases v with
      | vstr s => exact absurd hl (h s)
      | vmap m => rfl
      | vother => rfl
  refine ⟨hv, ?_, ?_, ?_⟩
  · simp [getConfigValue, hv]
  · simp [getConfigBool, hv]
  · simp [getConfigInt, hv]

/-- Witness for C10: a cache whose only entry holds a nested map, looked up
under that key and under an absent key. -/
theorem getSecret_never_errors_witness :
    (GetSecret [("creds", VaultVal.vmap [])] "creds").2 = none ∧
    ((GetSecret [("creds", VaultVal.vmap [])] "creds").1 = "" ∧
      getConfigValue [("creds", VaultVal.vmap [])] "creds" "fallback" = "fallback" ∧
      getConfigBool [("creds", VaultVal.vmap [])] "creds" true = true ∧
      getConfigInt [("creds", VaultVal.vmap [])] "creds" 7 = 7) := by
  have h := getSecret_never_errors [("creds", VaultVal.vmap [])] "creds" "fallback" true 7
  exact ⟨h.1, h.2 (by simp [lookupKey])⟩

/-- C9: for every payload document, building an envelope from it with
`NewNotificationMessage`, serialising the envelope to bytes, deserialising
those bytes back into a `NotificationMessage`, and unmarshalling its payload
into the original payload type yields exactly the input payload (the whole
deserialised envelope in fact equals the constructed one). -/
theorem envelope_payload_roundtrip (id ty : List Char) (payload : Json)
    (createdAt : List Char) :
    unmarshalNotificationMessage
        (render (marshalNotificationMessage
          (NewNotificationMessage id ty payload createdAt)))
      = some (NewNotificationMessage id ty payload createdAt) ∧
    (unmarshalNotificationMessage
        (render (marshalNotificationMessage
          (NewNotificationMessage id ty payload createdAt)))).map UnmarshalPayload
      = some payload := by
  have hm : marshalNotificationMessage (NewNotificationMessage id ty payload createdAt)
      = Json.jobj [(['i', 'd'], Json.jstr id),
          (['t', 'y', 'p', 'e'], Json.jstr ty),
          (['p', 'a', 'y', 'l', 'o', 'a', 'd'], payload),
          (['c', 'r', 'e', 'a', 't', 'e', 'd', '_', 'a', 't'], Json.jstr createdAt)] := by
    simp [marshalNotificationMessage, NewNotificationMessage]
  have h1 : unmarshalNotificationMessage
      (render (marshalNotificationMessage
        (NewNotificationMessage id ty payload createdAt)))
      = some (NewNotificationMessage id ty payload createdAt) := by
    rw [hm]
    simp [unmarshalNotificationMessage, parseJson_render, decodeStrField,
      decodeRawField, decodeHeadersField, lookupKey, lookupField,
      NewNotificationMessage]
  refine ⟨h1, ?_⟩
  rw [h1]
  simp [UnmarshalPayload, NewNotificationMessage]

end NotifKafka
